import Mathlib

/-!
Shallow embedding of the upload/offline-resilience core of the
relationship-manager portal: `src/utils/storage.ts` (durable local cache and
pending-upload queue), `src/utils/uploadService.ts` (upload pipeline with
retry/backoff and transcription), and the `handleDeleteCustomer` orchestrator
of `App.tsx` together with the remote record store wrapper `src/utils/db.ts`.

Remote calls (storage probe, byte transfer, URL resolution, transcription,
record-store deletes) are modelled by an environment value describing each
call's result; local-cache state is threaded explicitly.  `localStorage`
string round-trips (JSON, base64 data URLs) are assumed faithful, so the
cache holds the typed values directly.
-/

namespace Saarthi

/-- An opaque audio byte blob (`Blob` in the source): byte content plus mime
type. -/
structure Blob where
  bytes : List Nat
  mime : String
deriving DecidableEq, Repr

/-- Type `PendingUpload` from `src/types/index.ts`. -/
structure PendingUpload where
  sessionId : String
  audioBlob : Blob
  retryCount : Nat
  lastAttempt : String
deriving DecidableEq, Repr

/-- Type `Customer` from `src/types/index.ts`. -/
structure Customer where
  id : String
  name : String
  email : String
  phone : String
  createdAt : String
deriving DecidableEq, Repr

/-- Session status values of `ChatSession.status`. -/
inductive SessionStatus where
  | pending
  | uploaded
  | failed
deriving DecidableEq, Repr

/-- Type `ChatSession` from `src/types/index.ts` (the in-memory `audioBlob` field
is optional in the source and kept optional here). -/
structure ChatSession where
  id : String
  customerId : String
  customerName : String
  date : String
  audioBlob : Option Blob
  audioUrl : Option String
  transcript : String
  duration : Nat
  status : SessionStatus
deriving DecidableEq, Repr

/-- The durable local cache (`localStorage` keys `rm_customers`,
`rm_chat_sessions`, `rm_pending_uploads`, `rm_audio_blobs` of
`src/utils/storage.ts`).  `audioBlobs` models the JS
`Record<string, string>` of base64 blobs as an association list with at most
one entry per key (object assignment overwrites). -/
structure Storage where
  customers : List Customer
  sessions : List ChatSession
  pendingUploads : List PendingUpload
  audioBlobs : List (String × Blob)
deriving DecidableEq, Repr

/-- JS object assignment `blobs[sessionId] = b`: replace the entry if the key
is present, otherwise append it. -/
def setBlob (sid : String) (b : Blob) : List (String × Blob) → List (String × Blob)
  | [] => [(sid, b)]
  | (k, v) :: rest => if k = sid then (k, b) :: rest else (k, v) :: setBlob sid b rest

/-- Source `storageUtils.saveAudioBlob`: store the blob under its session id with
overwrite semantics (the base64 encode/decode round-trip is assumed
faithful). -/
def saveAudioBlob (sid : String) (b : Blob) (st : Storage) : Storage :=
  { st with audioBlobs := setBlob sid b st.audioBlobs }

/-- Source `storageUtils.getAudioBlob`: look the blob up by session id; absent keys
give `none` (the source returns `null`). -/
def getAudioBlob (sid : String) (st : Storage) : Option Blob :=
  match st.audioBlobs.find? (fun p => p.1 == sid) with
  | some p => some p.2
  | none => none

/-- Source `storageUtils.deleteAudioBlob`: JS `delete blobs[sessionId]`. -/
def deleteAudioBlob (sid : String) (st : Storage) : Storage :=
  { st with audioBlobs := st.audioBlobs.filter (fun p => p.1 != sid) }

/-- Source `storageUtils.addPendingUpload`: reads the queue, pushes a fresh entry
with `retryCount 0` and `lastAttempt now`, saves the queue, then saves the
audio blob.  Note the source pushes unconditionally — it does not look for an
existing entry with the same `sessionId`. -/
def addPendingUpload (sid : String) (blob : Blob) (now : String) (st : Storage) : Storage :=
  let st' := { st with pendingUploads := st.pendingUploads ++ [⟨sid, blob, 0, now⟩] }
  saveAudioBlob sid blob st'

/-- Source `storageUtils.removePendingUpload`: keep only entries whose `sessionId`
differs from the given one. -/
def removePendingUpload (sid : String) (st : Storage) : Storage :=
  { st with pendingUploads := st.pendingUploads.filter (fun u => u.sessionId != sid) }

/-- The empty local cache (fresh `localStorage`). -/
def emptyStorage : Storage := ⟨[], [], [], []⟩

/-! ### Substring test (JS `String.prototype.includes`) -/

/-- Whether `p` is an initial segment of `l` (character lists). -/
def listStartsWith : List Char → List Char → Bool
  | [], _ => true
  | _ :: _, [] => false
  | p :: ps, c :: cs => p == c && listStartsWith ps cs

/-- Whether the pattern occurs somewhere in the character list. -/
def strContainsAux (pat : List Char) : List Char → Bool
  | [] => pat.isEmpty
  | c :: rest => listStartsWith pat (c :: rest) || strContainsAux pat rest

/-- JS `s.includes(pat)`. -/
def strContains (s pat : String) : Bool :=
  strContainsAux pat.data s.data

/-- ASCII lowercase of one character: the JS `toLowerCase` restricted to
ASCII, which covers the storage client error messages compared against
here. -/
def charLower (c : Char) : Char :=
  if 65 ≤ c.toNat ∧ c.toNat ≤ 90 then Char.ofNat (c.toNat + 32) else c

/-- JS `s.toLowerCase()` (ASCII range). -/
def strLower (s : String) : String := ⟨s.data.map charLower⟩

/-- The permanent-misconfiguration test of `attemptUpload`:
`errorMessage.toLowerCase().includes('bucket not found')`. -/
def isBucketNotFound (msg : String) : Bool :=
  strContains (strLower msg) "bucket not found"

/-! ### Upload service (`src/utils/uploadService.ts`) -/

/-- Constant `private maxRetries = 3` of `UploadService`. -/
def maxRetries : Nat := 3

/-- Constant `private retryDelay = 2000` of `UploadService`. -/
def retryDelay : Nat := 2000

/-- Constant `STORAGE_BUCKET` of `src/utils/supabaseClient.ts` (env override absent,
so the default applies). -/
def STORAGE_BUCKET : String := "recordings"

/-- Outcome of the remote transcriber `fetch` in
`generateTranscriptWithGemini`: the call throws, returns a non-ok response,
or returns candidate parts (each part's optional `text` field). -/
inductive TranscriberResponse where
  | throws (msg : String)
  | notOk (errText : String)
  | ok (parts : List (Option String))
deriving DecidableEq, Repr

/-- Behaviour of the remote world during one `uploadAudio` call:
`probeError` is the error of the connectivity probe (bucket listing);
`uploadResult n` is the outcome of byte-transfer attempt `n` (0-based;
`none` = success, `some msg` = the storage client threw with message `msg`);
`publicUrl` is `getPublicUrl().data.publicUrl` (falsy as the empty string);
`signedUrl` is the signed-URL fallback (`none` = `signedError` set);
`geminiApiKey` is `VITE_GEMINI_API_KEY`; `transcriber` the transcription
call's outcome; `now` the current `toISOString` timestamp. -/
structure RemoteEnv where
  probeError : Option String
  uploadResult : Nat → Option String
  publicUrl : String
  signedUrl : Option String
  geminiApiKey : Option String
  transcriber : TranscriberResponse
  now : String

/-- Source `UploadService.checkServerConnection`: true iff the metadata listing of
the storage bucket reports no error (a thrown error also gives false). -/
def checkServerConnection (env : RemoteEnv) : Bool :=
  match env.probeError with
  | some _ => false
  | none => true

/-- Source `UploadService.generateTranscriptWithGemini`: with the key unset it skips
and returns the empty string; a thrown fetch or a non-ok response is caught
and degrades to the empty string; otherwise the part texts are joined with
spaces, trimmed, with the empty string as final fallback (`text || ''`). -/
def generateTranscriptWithGemini (geminiApiKey : Option String)
    (tr : TranscriberResponse) : String :=
  match geminiApiKey with
  | none => ""
  | some _ =>
    match tr with
    | .throws _ => ""
    | .notOk _ => ""
    | .ok parts =>
      let text := (String.intercalate " " (parts.map (fun p => p.getD ""))).trim
      if text = "" then "" else text

/-- The result object of `uploadAudio` / `attemptUpload`:
`{ success, transcript?, audioUrl?, error? }`. -/
structure UploadOutcome where
  success : Bool
  transcript : Option String
  audioUrl : Option String
  error : Option String
deriving DecidableEq, Repr

/-- One `uploadAudio` run: its returned outcome, the local cache afterwards,
the values passed to the progress callback in order, the sleep durations
awaited before each retry in order, and the number of byte-transfer calls
made. -/
structure UploadRun where
  outcome : UploadOutcome
  store : Storage
  progress : List Nat
  delays : List Nat
  transfers : Nat
deriving Repr

/-- The failure-path error message `Supabase is not reachable...` of
`uploadAudio`. -/
def unreachableMessage : String :=
  "Supabase is not reachable. Recording saved for later upload."

/-- The configuration-error message of `attemptUpload` for a missing
bucket. -/
def bucketMessage : String :=
  "Supabase bucket \"" ++ STORAGE_BUCKET ++
    "\" not found. Create this bucket in Supabase Storage (Dashboard → Storage → New bucket) and set its public access or adjust policies."

/-- The retry-exhaustion error message of `attemptUpload`, parameterised by
the last thrown error's message. -/
def uploadFailedMessage (errMsg : String) : String :=
  "Upload failed after " ++ toString maxRetries ++
    " attempts. Recording saved locally. " ++ errMsg

/-- Source `UploadService.attemptUpload`: report 10% progress, attempt the byte
transfer; on success resolve a URL (public, else signed, else the falsy
public URL), report 60%, transcribe (failures degrade to `""`), report 100%,
remove the pending entry and return success.  On a thrown error whose
message contains `bucket not found` return the configuration error at once;
otherwise if the retry budget remains, sleep `retryDelay * (retryCount + 1)`
and recurse with `retryCount + 1`; else enqueue a pending upload and return
the exhaustion error. -/
def attemptUpload (env : RemoteEnv) (sessionId : String) (audioBlob : Blob)
    (retryCount : Nat) (st : Storage) : UploadRun :=
  match env.uploadResult retryCount with
  | none =>
    let pub := env.publicUrl
    let url := if pub = "" then
        match env.signedUrl with
        | some s => s
        | none => pub
      else pub
    let transcript := generateTranscriptWithGemini env.geminiApiKey env.transcriber
    { outcome := ⟨true, some transcript, some url, none⟩
      store := removePendingUpload sessionId st
      progress := [10, 60, 100]
      delays := []
      transfers := 1 }
  | some errMsg =>
    if isBucketNotFound errMsg then
      { outcome := ⟨false, none, none, some bucketMessage⟩
        store := st
        progress := [10]
        delays := []
        transfers := 1 }
    else if retryCount < maxRetries then
      let r := attemptUpload env sessionId audioBlob (retryCount + 1) st
      { r with
        progress := 10 :: r.progress
        delays := retryDelay * (retryCount + 1) :: r.delays
        transfers := r.transfers + 1 }
    else
      { outcome := ⟨false, none, none, some (uploadFailedMessage errMsg)⟩
        store := addPendingUpload sessionId audioBlob env.now st
        progress := [10]
        delays := []
        transfers := 1 }
termination_by maxRetries + 1 - retryCount
decreasing_by simp_wf; omega

/-- Source `UploadService.uploadAudio`: probe connectivity; when unreachable,
enqueue a pending upload and fail without any transfer attempt; otherwise
run the attempt loop starting at `retryCount 0`. -/
def uploadAudio (env : RemoteEnv) (sessionId : String) (audioBlob : Blob)
    (st : Storage) : UploadRun :=
  if checkServerConnection env then
    attemptUpload env sessionId audioBlob 0 st
  else
    { outcome := ⟨false, none, none, some unreachableMessage⟩
      store := addPendingUpload sessionId audioBlob env.now st
      progress := []
      delays := []
      transfers := 0 }

/-- The loop body of `UploadService.retryPendingUploads` over the snapshot of
the queue taken at entry: for each entry report `retrying`, fetch its cached
blob, and when present re-invoke `uploadAudio` (reporting `success` or
`failed`); entries whose blob is gone are skipped.  `env` gives the remote
behaviour of the `uploadAudio` call made for each session id.  Returns the
final cache and the `(sessionId, status)` callback reports in order. -/
def retryStep (env : String → RemoteEnv) :
    List PendingUpload → Storage → Storage × List (String × String)
  | [], st => (st, [])
  | u :: rest, st =>
    match getAudioBlob u.sessionId st with
    | some blob =>
      let run := uploadAudio (env u.sessionId) u.sessionId blob st
      let status := if run.outcome.success then "success" else "failed"
      let r := retryStep env rest run.store
      (r.1, (u.sessionId, "retrying") :: (u.sessionId, status) :: r.2)
    | none =>
      let r := retryStep env rest st
      (r.1, (u.sessionId, "retrying") :: r.2)

/-- Source `UploadService.retryPendingUploads`: read the pending queue once and
process each entry with `retryStep`. -/
def retryPendingUploads (env : String → RemoteEnv) (st : Storage) :
    Storage × List (String × String) :=
  retryStep env st.pendingUploads st

/-! ### Customer deletion cascade (`App.tsx` `handleDeleteCustomer` with the
remote wrappers of `src/utils/db.ts`) -/

/-- The remote record store: `customers` and `sessions` tables. -/
structure RemoteDB where
  customers : List Customer
  sessions : List ChatSession
deriving DecidableEq, Repr

/-- Observable remote/cache deletion events of the cascade, in call order. -/
inductive DeleteEvent where
  | remoteDeleteSessions (customerId : String)
  | remoteDeleteCustomer (customerId : String)
  | localDeleteBlob (sessionId : String)
deriving DecidableEq, Repr

/-- In-memory UI state relevant to the cascade (the `customers` and
`sessions` React state of `App`). -/
structure AppState where
  customers : List Customer
  sessions : List ChatSession
deriving DecidableEq, Repr

/-- Source `db.deleteSessionsByCustomer`: delete all session rows with the given
`customer_id`. -/
def deleteSessionsByCustomer (customerId : String) (db : RemoteDB) : RemoteDB :=
  { db with sessions := db.sessions.filter (fun s => s.customerId != customerId) }

/-- Source `db.deleteCustomer`: delete the customer row with the given id. -/
def deleteCustomer (id : String) (db : RemoteDB) : RemoteDB :=
  { db with customers := db.customers.filter (fun c => c.id != id) }

/-- Source `handleDeleteCustomer` of `App.tsx` (confirmed path, remote calls
succeeding), as fixed to delete dependent records first: filter the customer
out of UI state; call `db.deleteSessionsByCustomer` then `db.deleteCustomer`;
compute `updatedSessions` as the sessions whose `customerId` differs from the
deleted id and save them to the local cache; finally iterate
`updatedSessions` and delete the cached audio blob of each session whose
`customerId` equals the deleted id.  Returns the new UI state, remote store,
local cache, and the event trace in call order. -/
def handleDeleteCustomer (id : String) (app : AppState) (db : RemoteDB)
    (st : Storage) : AppState × RemoteDB × Storage × List DeleteEvent :=
  let updatedCustomers := app.customers.filter (fun c => c.id != id)
  let db1 := deleteSessionsByCustomer id db
  let db2 := deleteCustomer id db1
  let updatedSessions := app.sessions.filter (fun s => s.customerId != id)
  let st1 := { st with sessions := updatedSessions }
  let step := fun (acc : Storage × List DeleteEvent) (s : ChatSession) =>
    if s.customerId == id then
      (deleteAudioBlob s.id acc.1, acc.2 ++ [DeleteEvent.localDeleteBlob s.id])
    else acc
  let purged := updatedSessions.foldl step (st1, [])
  (⟨updatedCustomers, updatedSessions⟩, db2, purged.1,
    DeleteEvent.remoteDeleteSessions id :: DeleteEvent.remoteDeleteCustomer id :: purged.2)

/-! ### Concrete inputs used by witnesses and counterexamples -/

/-- A small concrete audio blob. -/
def cBlob : Blob := ⟨[1, 2, 3], "audio/webm"⟩

/-- A second concrete audio blob. -/
def cBlob2 : Blob := ⟨[7], "audio/webm"⟩

/-- A remote world where every call succeeds (transcriber key unset, so
transcription skips). -/
def wEnvOK : RemoteEnv :=
  ⟨none, fun _ => none, "https://example.com/pub", none, none, .throws "net down", "t0"⟩

/-- A remote world whose connectivity probe fails. -/
def wEnvDown : RemoteEnv := { wEnvOK with probeError := some "offline" }

/-- A remote world where every byte-transfer attempt throws a transient
error. -/
def wEnvFail : RemoteEnv := { wEnvOK with uploadResult := fun _ => some "network glitch" }

/-- A remote world where every byte-transfer attempt throws the missing
bucket error. -/
def wEnvBucket : RemoteEnv := { wEnvOK with uploadResult := fun _ => some "Bucket not found" }

/-- A remote world where the first byte-transfer attempt fails transiently
and the retry succeeds. -/
def wEnvRetryOK : RemoteEnv :=
  { wEnvOK with uploadResult := fun n => if n = 0 then some "network glitch" else none }

/-- A remote world where the first byte-transfer attempt fails transiently
and the retry throws the missing bucket error. -/
def wEnvBucket2 : RemoteEnv :=
  { wEnvOK with
    uploadResult := fun n => if n = 0 then some "network glitch" else some "Bucket not found" }

/-- Transcription-step failure, as the spec lists it: the transcriber API key
is unconfigured, the transcriber call throws, or it returns a non-ok
response. -/
def transcriptionFailed (key : Option String) (tr : TranscriberResponse) : Prop :=
  key = none ∨ (∃ e, tr = .throws e) ∨ (∃ e, tr = .notOk e)

/-- Concrete two-entry pending queue with both blobs cached. -/
def cQueueStorage : Storage :=
  ⟨[], [], [⟨"s1", cBlob, 0, "t1"⟩, ⟨"s2", cBlob2, 0, "t2"⟩],
    [("s1", cBlob), ("s2", cBlob2)]⟩

/-- Concrete cascade-deletion customer. -/
def cCust : Customer := ⟨"c1", "Alice", "alice@example.com", "123", "d0"⟩

/-- First session of the concrete customer. -/
def cSess1 : ChatSession := ⟨"s1", "c1", "Alice", "d1", none, none, "", 5, .pending⟩

/-- Second session of the concrete customer. -/
def cSess2 : ChatSession := ⟨"s2", "c1", "Alice", "d2", none, none, "", 7, .pending⟩

/-- UI state holding the concrete customer and both sessions. -/
def cApp : AppState := ⟨[cCust], [cSess1, cSess2]⟩

/-- Remote store holding the concrete customer row and both session rows. -/
def cDB : RemoteDB := ⟨[cCust], [cSess1, cSess2]⟩

/-- Local cache holding both sessions and both audio blobs. -/
def cStorage : Storage := ⟨[cCust], [cSess1, cSess2], [], [("s1", cBlob), ("s2", cBlob2)]⟩

/-! ### Helper lemmas -/

/-- Branch equation of `attemptUpload` for a successful byte transfer. -/
theorem attemptUpload_ok {env : RemoteEnv} {sid : String} {blob : Blob} {rc : Nat} {st : Storage}
    (h : env.uploadResult rc = none) :
    attemptUpload env sid blob rc st =
      { outcome := ⟨true, some (generateTranscriptWithGemini env.geminiApiKey env.transcriber),
          some (if env.publicUrl = "" then
              (match env.signedUrl with | some s => s | none => env.publicUrl)
            else env.publicUrl), none⟩
        store := removePendingUpload sid st
        progress := [10, 60, 100], delays := [], transfers := 1 } := by
  rw [attemptUpload.eq_def, h]

/-- Branch equation of `attemptUpload` for the missing-bucket error. -/
theorem attemptUpload_bucket {env : RemoteEnv} {sid : String} {blob : Blob} {rc : Nat} {st : Storage}
    {m : String} (h : env.uploadResult rc = some m) (hb : isBucketNotFound m = true) :
    attemptUpload env sid blob rc st =
      { outcome := ⟨false, none, none, some bucketMessage⟩
        store := st, progress := [10], delays := [], transfers := 1 } := by
  rw [attemptUpload.eq_def, h]
  simp [hb]

/-- Branch equation of `attemptUpload` for a transient failure with budget
remaining. -/
theorem attemptUpload_retry {env : RemoteEnv} {sid : String} {blob : Blob} {rc : Nat} {st : Storage}
    {m : String} (h : env.uploadResult rc = some m) (hb : isBucketNotFound m = false)
    (hlt : rc < maxRetries) :
    attemptUpload env sid blob rc st =
      { attemptUpload env sid blob (rc + 1) st with
        progress := 10 :: (attemptUpload env sid blob (rc + 1) st).progress
        delays := retryDelay * (rc + 1) :: (attemptUpload env sid blob (rc + 1) st).delays
        transfers := (attemptUpload env sid blob (rc + 1) st).transfers + 1 } := by
  rw [attemptUpload.eq_def, h]
  simp [hb, hlt]

/-- Branch equation of `attemptUpload` for a transient failure with the retry
budget exhausted. -/
theorem attemptUpload_exhaust {env : RemoteEnv} {sid : String} {blob : Blob} {rc : Nat} {st : Storage}
    {m : String} (h : env.uploadResult rc = some m) (hb : isBucketNotFound m = false)
    (hge : ¬ rc < maxRetries) :
    attemptUpload env sid blob rc st =
      { outcome := ⟨false, none, none, some (uploadFailedMessage m)⟩
        store := addPendingUpload sid blob env.now st
        progress := [10], delays := [], transfers := 1 } := by
  rw [attemptUpload.eq_def, h]
  simp [hb, hge]

/-- A reachable probe makes `checkServerConnection` succeed. -/
theorem checkServerConnection_none {env : RemoteEnv} (h : env.probeError = none) :
    checkServerConnection env = true := by
  simp [checkServerConnection, h]

/-- Invariants of the attempt loop, by functional induction: the progress
trace starts at 10, is non-decreasing, stays at most 100, ends at 100 on
success; success leaves the cache at `removePendingUpload`; each attempt
after the first is preceded by exactly one sleep; the attempt count respects
the remaining budget. -/
theorem attemptUpload_bundle (env : RemoteEnv) (sid : String) (blob : Blob) :
    ∀ (rc : Nat) (st : Storage),
      (attemptUpload env sid blob rc st).progress.head? = some 10 ∧
      List.Chain' (· ≤ ·) (attemptUpload env sid blob rc st).progress ∧
      (∀ x ∈ (attemptUpload env sid blob rc st).progress, x ≤ 100) ∧
      ((attemptUpload env sid blob rc st).outcome.success = true →
        (attemptUpload env sid blob rc st).progress.getLast? = some 100) ∧
      ((attemptUpload env sid blob rc st).outcome.success = true →
        (attemptUpload env sid blob rc st).store = removePendingUpload sid st) ∧
      (attemptUpload env sid blob rc st).delays.length + 1 = (attemptUpload env sid blob rc st).transfers ∧
      (attemptUpload env sid blob rc st).transfers ≤ maxRetries - rc + 1 := by
  intro rc st
  induction rc, st using attemptUpload.induct env sid blob with
  | case1 rc st h =>
    rw [attemptUpload_ok h]
    dsimp only
    refine ⟨rfl, ?_, by decide, fun _ => rfl, fun _ => rfl, rfl, by omega⟩
    simp [List.chain'_cons]
  | case2 rc st m h hb =>
    rw [attemptUpload_bucket h hb]
    dsimp only
    refine ⟨rfl, List.chain'_singleton 10, by decide, by simp, by simp, rfl, by omega⟩
  | case3 rc st m h hb hlt ih =>
    rw [attemptUpload_retry h (by simpa using hb) hlt]
    dsimp only
    obtain ⟨ihHead, ihChain, ihLe, ihLast, ihStore, ihLen, ihTr⟩ := ih
    obtain ⟨t, ht⟩ : ∃ t, (attemptUpload env sid blob (rc + 1) st).progress = 10 :: t := by
      cases hp : (attemptUpload env sid blob (rc + 1) st).progress with
      | nil => rw [hp] at ihHead; simp at ihHead
      | cons a t => rw [hp] at ihHead; simp at ihHead; exact ⟨t, by rw [ihHead]⟩
    constructor
    · rfl
    constructor
    · rw [ht] at ihChain ⊢
      exact List.chain'_cons'.mpr ⟨by simp [ht] at ihHead ⊢, ihChain⟩
    constructor
    · intro x hx
      simp only [List.mem_cons] at hx
      rcases hx with h10 | hx
      · omega
      · exact ihLe x hx
    constructor
    · intro hs
      have := ihLast hs
      rw [ht] at this ⊢
      rw [List.getLast?_cons_cons]
      exact this
    constructor
    · intro hs
      exact ihStore hs
    constructor
    · simp only [List.length_cons]
      omega
    · have hm : maxRetries - (rc + 1) + 1 + 1 ≤ maxRetries - rc + 1 := by omega
      omega
  | case4 rc st m h hb hge =>
    rw [attemptUpload_exhaust h (by simpa using hb) hge]
    dsimp only
    refine ⟨rfl, List.chain'_singleton 10, by decide, by simp, by simp, rfl, by omega⟩

/-- Degenerate pattern: the empty pattern occurs in every string. -/
theorem strContainsAux_nil : ∀ l : List Char, strContainsAux [] l = true
  | [] => rfl
  | _ :: _ => by simp [strContainsAux, listStartsWith]

/-- Extending a list on the right preserves its initial segments. -/
theorem listStartsWith_append {p l : List Char} (r : List Char)
    (h : listStartsWith p l = true) : listStartsWith p (l ++ r) = true := by
  induction p generalizing l with
  | nil => rfl
  | cons a ps ih =>
    cases l with
    | nil => simp [listStartsWith] at h
    | cons c cs =>
      simp only [listStartsWith, Bool.and_eq_true] at h
      simp only [List.cons_append, listStartsWith, Bool.and_eq_true]
      exact ⟨h.1, ih h.2⟩

/-- Extending a list on the right preserves occurrence of a pattern. -/
theorem strContainsAux_append_left {p l : List Char} (r : List Char)
    (h : strContainsAux p l = true) : strContainsAux p (l ++ r) = true := by
  induction l with
  | nil =>
    simp only [strContainsAux, List.isEmpty_iff] at h
    subst h
    simpa using strContainsAux_nil r
  | cons c cs ih =>
    simp only [strContainsAux, Bool.or_eq_true] at h
    rcases h with h | h
    · simp only [List.cons_append, strContainsAux, Bool.or_eq_true]
      exact Or.inl (by simpa using listStartsWith_append r h)
    · simp only [List.cons_append, strContainsAux, Bool.or_eq_true]
      exact Or.inr (ih h)

/-- Closed form of the exhaustion message: the template renders the retry
constant as `3`. -/
theorem uploadFailedMessage_eq (m : String) :
    uploadFailedMessage m = "Upload failed after 3 attempts. Recording saved locally. " ++ m := rfl

/-- The exhaustion message always mentions the attempt count `3 attempts`. -/
theorem uploadFailedMessage_contains (m : String) :
    strContains (uploadFailedMessage m) "3 attempts" = true := by
  rw [uploadFailedMessage_eq, strContains, String.data_append]
  exact strContainsAux_append_left m.data (by decide)

/-! ### Helper results for the claims -/

/-- Rephrased retry branch with the successor index given explicitly, for
stepwise rewriting. -/
theorem attemptUpload_retry2 {env : RemoteEnv} {sid : String} {blob : Blob} {rc rc2 : Nat}
    {st : Storage} {m : String} (h : env.uploadResult rc = some m)
    (hb : isBucketNotFound m = false) (hlt : rc < maxRetries) (hrc : rc2 = rc + 1) :
    attemptUpload env sid blob rc st =
      { attemptUpload env sid blob rc2 st with
        progress := 10 :: (attemptUpload env sid blob rc2 st).progress
        delays := retryDelay * rc2 :: (attemptUpload env sid blob rc2 st).delays
        transfers := (attemptUpload env sid blob rc2 st).transfers + 1 } := by
  subst hrc
  exact attemptUpload_retry h hb hlt

/-- Failed transcription always degrades to the empty transcript string. -/
theorem generateTranscript_failed {key : Option String} {tr : TranscriberResponse}
    (h : transcriptionFailed key tr) : generateTranscriptWithGemini key tr = "" := by
  rcases h with h | ⟨e, h⟩ | ⟨e, h⟩
  · subst h; rfl
  · subst h; cases key <;> rfl
  · subst h; cases key <;> rfl

/-- One all-success pass of the retry loop leaves the blob cache untouched
and removes from the queue exactly the session ids it processed. -/
theorem retryStep_success (env : String → RemoteEnv) :
    ∀ (todo : List PendingUpload) (st : Storage),
      (∀ u ∈ todo, (env u.sessionId).probeError = none ∧ (env u.sessionId).uploadResult 0 = none) →
      (∀ u ∈ todo, (getAudioBlob u.sessionId st).isSome = true) →
      (retryStep env todo st).1.audioBlobs = st.audioBlobs ∧
      (retryStep env todo st).1.pendingUploads =
        st.pendingUploads.filter
          (fun p => !(todo.map PendingUpload.sessionId).contains p.sessionId) := by
  intro todo
  induction todo with
  | nil =>
    intro st _ _
    exact ⟨rfl, by simp [retryStep]⟩
  | cons u rest ih =>
    intro st henv hblob
    obtain ⟨b, hb⟩ : ∃ b, getAudioBlob u.sessionId st = some b :=
      Option.isSome_iff_exists.mp (hblob u (by simp))
    have hpe := (henv u (by simp)).1
    have hu0 := (henv u (by simp)).2
    have hrun : uploadAudio (env u.sessionId) u.sessionId b st =
        { outcome := ⟨true,
            some (generateTranscriptWithGemini (env u.sessionId).geminiApiKey
              (env u.sessionId).transcriber),
            some (if (env u.sessionId).publicUrl = "" then
                (match (env u.sessionId).signedUrl with
                  | some s => s
                  | none => (env u.sessionId).publicUrl)
              else (env u.sessionId).publicUrl), none⟩
          store := removePendingUpload u.sessionId st
          progress := [10, 60, 100], delays := [], transfers := 1 } := by
      have hu : uploadAudio (env u.sessionId) u.sessionId b st =
          attemptUpload (env u.sessionId) u.sessionId b 0 st := by
        simp [uploadAudio, checkServerConnection_none hpe]
      rw [hu, attemptUpload_ok hu0]
    have ih' := ih (removePendingUpload u.sessionId st)
      (fun v hv => henv v (by simp [hv]))
      (fun v hv => hblob v (by simp [hv]))
    simp only [retryStep, hb, hrun]
    constructor
    · exact ih'.1
    · rw [ih'.2, removePendingUpload]
      dsimp only
      rw [List.filter_filter]
      apply List.filter_congr
      intro p hp
      simp only [List.map_cons, List.contains_cons, Bool.not_or, bne]
      rw [Bool.and_comm]

/-- A successful outcome of the attempt loop always carries the transcript
produced by the transcription step, whichever attempt succeeded. -/
theorem attemptUpload_success_transcript (env : RemoteEnv) (sid : String) (blob : Blob) :
    ∀ (rc : Nat) (st : Storage),
      (attemptUpload env sid blob rc st).outcome.success = true →
      (attemptUpload env sid blob rc st).outcome.transcript =
        some (generateTranscriptWithGemini env.geminiApiKey env.transcriber) := by
  intro rc st
  induction rc, st using attemptUpload.induct env sid blob with
  | case1 rc st h =>
    rw [attemptUpload_ok h]
    intro _
    rfl
  | case2 rc st m h hb =>
    rw [attemptUpload_bucket h hb]
    intro hs
    exact Bool.noConfusion hs
  | case3 rc st m h hb hlt ih =>
    rw [attemptUpload_retry h (by simpa using hb) hlt]
    dsimp only
    exact ih
  | case4 rc st m h hb hge =>
    rw [attemptUpload_exhaust h (by simpa using hb) hge]
    intro hs
    exact Bool.noConfusion hs

/-- If the byte transfer succeeds at attempt `k` (each earlier attempt
failing transiently without the bucket error), the attempt loop started at
any `rc ≤ k` ends with a successful outcome. -/
theorem attemptUpload_succeeds_at (env : RemoteEnv) (sid : String) (blob : Blob) :
    ∀ (rc : Nat) (st : Storage) (k : Nat), rc ≤ k → k ≤ maxRetries →
      env.uploadResult k = none →
      (∀ j, rc ≤ j → j < k → ∃ m, env.uploadResult j = some m ∧ isBucketNotFound m = false) →
      (attemptUpload env sid blob rc st).outcome.success = true := by
  intro rc st
  induction rc, st using attemptUpload.induct env sid blob with
  | case1 rc st h =>
    intro k _ _ _ _
    rw [attemptUpload_ok h]
  | case2 rc st m h hb =>
    intro k hrk hkm hk hprev
    rcases Nat.lt_or_ge rc k with hlt | hge
    · obtain ⟨m2, hm2, hb2⟩ := hprev rc le_rfl hlt
      rw [h] at hm2
      have hm := Option.some.inj hm2
      subst hm
      rw [hb] at hb2
      exact Bool.noConfusion hb2
    · have he : rc = k := by omega
      rw [he, hk] at h
      exact Option.noConfusion h
  | case3 rc st m h hb hlt ih =>
    intro k hrk hkm hk hprev
    have hrck : rc < k := by
      rcases Nat.lt_or_ge rc k with hlt2 | hge
      · exact hlt2
      · have he : rc = k := by omega
        rw [he, hk] at h
        exact Option.noConfusion h
    rw [attemptUpload_retry h (by simpa using hb) hlt]
    dsimp only
    exact ih k (by omega) hkm hk (fun j hj1 hj2 => hprev j (by omega) hj2)
  | case4 rc st m h hb hge =>
    intro k hrk hkm hk hprev
    have he : rc = k := by omega
    rw [he, hk] at h
    exact Option.noConfusion h

/-- The exhaustion message never coincides with the configuration-error
message (their first characters differ). -/
theorem uploadFailedMessage_ne_bucketMessage (m : String) :
    uploadFailedMessage m ≠ bucketMessage := by
  intro h
  have hdata : (uploadFailedMessage m).data = bucketMessage.data := congrArg String.data h
  rw [uploadFailedMessage_eq, String.data_append] at hdata
  have hpre : ("Upload failed after 3 attempts. Recording saved locally. " : String).data =
      'U' :: ("pload failed after 3 attempts. Recording saved locally. " : String).data := by
    decide
  have hbd : bucketMessage.data =
      'S' :: ("upabase bucket \"recordings\" not found. Create this bucket in Supabase Storage (Dashboard → Storage → New bucket) and set its public access or adjust policies." : String).data := by
    decide
  rw [hpre, List.cons_append, hbd] at hdata
  have hhead : ('U' : Char) = 'S' := ((List.cons.injEq _ _ _ _).mp hdata).1
  exact absurd hhead (by decide)

/-- Any run of the attempt loop that returns the configuration-error message
took the bucket branch: it failed and left the cache exactly as given. -/
theorem attemptUpload_bucketError_state (env : RemoteEnv) (sid : String) (blob : Blob) :
    ∀ (rc : Nat) (st : Storage),
      (attemptUpload env sid blob rc st).outcome.error = some bucketMessage →
      (attemptUpload env sid blob rc st).outcome.success = false ∧
      (attemptUpload env sid blob rc st).store = st := by
  intro rc st
  induction rc, st using attemptUpload.induct env sid blob with
  | case1 rc st h =>
    rw [attemptUpload_ok h]
    intro herr
    exact Option.noConfusion herr
  | case2 rc st m h hb =>
    rw [attemptUpload_bucket h hb]
    intro _
    exact ⟨rfl, rfl⟩
  | case3 rc st m h hb hlt ih =>
    rw [attemptUpload_retry h (by simpa using hb) hlt]
    dsimp only
    exact ih
  | case4 rc st m h hb hge =>
    rw [attemptUpload_exhaust h (by simpa using hb) hge]
    intro herr
    exact absurd (Option.some.inj herr) (uploadFailedMessage_ne_bucketMessage m)

/-! ### The claims -/

/-- C1, counterexample: the at-most-one-entry-per-`sessionId` invariant fails
on the code — two `addPendingUpload` calls for session `s1` leave two queue
entries with `sessionId = "s1"`, because the source pushes unconditionally
instead of replacing. -/
theorem claim1_counterexample :
    ((addPendingUpload "s1" cBlob2 "t2" (addPendingUpload "s1" cBlob "t1" emptyStorage)).pendingUploads.filter
      (fun u => u.sessionId == "s1")).length = 2 := by decide

/-- C1, amended: `addPendingUpload` always appends a fresh entry with
`retryCount 0` to the end of the queue (duplicating any existing entry for
the same `sessionId` rather than replacing it), and `removePendingUpload`
removes every entry carrying its `sessionId`. -/
theorem claim1_append_and_removeAll (sid : String) (blob : Blob) (now : String) (st : Storage) :
    (addPendingUpload sid blob now st).pendingUploads = st.pendingUploads ++ [⟨sid, blob, 0, now⟩] ∧
    (removePendingUpload sid st).pendingUploads.filter (fun u => u.sessionId == sid) = [] := by
  constructor
  · rfl
  · rw [removePendingUpload]
    dsimp only
    rw [List.filter_filter]
    refine List.filter_eq_nil_iff.mpr ?_
    intro a ha
    cases hx : a.sessionId == sid <;> simp [bne, hx]

/-- C2: deleting customer `c1` (two sessions `s1`, `s2`, both blobs cached)
issues the remote deletes in the claimed order — sessions before the
customer row — and clears the remote rows, but purges NO cached audio blob:
the purge loop of `handleDeleteCustomer` iterates the surviving sessions
(`customerId ≠ id`) under a `customerId = id` guard, so it never fires and
both blobs remain in the local cache, contradicting the claimed cascade. -/
theorem claim2_blob_purge_dead :
    (handleDeleteCustomer "c1" cApp cDB cStorage).2.2.2 =
      [DeleteEvent.remoteDeleteSessions "c1", DeleteEvent.remoteDeleteCustomer "c1"] ∧
    (handleDeleteCustomer "c1" cApp cDB cStorage).2.1.sessions = [] ∧
    (handleDeleteCustomer "c1" cApp cDB cStorage).2.1.customers = [] ∧
    getAudioBlob "s1" (handleDeleteCustomer "c1" cApp cDB cStorage).2.2.1 = some cBlob ∧
    getAudioBlob "s2" (handleDeleteCustomer "c1" cApp cDB cStorage).2.2.1 = some cBlob2 := by
  decide

/-- C3: when the connectivity probe fails, `uploadAudio` enqueues a
`PendingUpload` with `retryCount 0`, returns `success = false` with the
queued-for-later message, and makes no byte-transfer attempt. -/
theorem claim3_unreachable (env : RemoteEnv) (sid : String) (blob : Blob) (st : Storage)
    (e : String) (h : env.probeError = some e) :
    uploadAudio env sid blob st =
      { outcome := ⟨false, none, none, some unreachableMessage⟩
        store := addPendingUpload sid blob env.now st
        progress := [], delays := [], transfers := 0 } ∧
    (addPendingUpload sid blob env.now st).pendingUploads =
      st.pendingUploads ++ [⟨sid, blob, 0, env.now⟩] := by
  constructor
  · simp [uploadAudio, checkServerConnection, h]
  · rfl

/-- C3 witness at a concrete offline environment. -/
theorem claim3_witness :
    uploadAudio wEnvDown "s1" cBlob emptyStorage =
      { outcome := ⟨false, none, none, some unreachableMessage⟩
        store := addPendingUpload "s1" cBlob wEnvDown.now emptyStorage
        progress := [], delays := [], transfers := 0 } ∧
    (addPendingUpload "s1" cBlob wEnvDown.now emptyStorage).pendingUploads =
      emptyStorage.pendingUploads ++ [⟨"s1", cBlob, 0, wEnvDown.now⟩] :=
  claim3_unreachable wEnvDown "s1" cBlob emptyStorage "offline" rfl

/-- C4: with the probe reachable and every transfer attempt failing
transiently, `uploadAudio` makes exactly `maxRetries + 1 = 4` transfer
attempts, sleeping `retryDelay * n` before retry `n` (n = 1, 2, 3), then
enqueues a `PendingUpload` carrying the same blob and returns
`success = false` with an error message mentioning the attempt count
(`3 attempts`, rendered from `maxRetries`). -/
theorem claim4_retry_policy (env : RemoteEnv) (sid : String) (blob : Blob) (st : Storage)
    (hp : env.probeError = none)
    (hfail : ∀ n, n ≤ maxRetries → ∃ m, env.uploadResult n = some m ∧ isBucketNotFound m = false) :
    (uploadAudio env sid blob st).outcome.success = false ∧
    (uploadAudio env sid blob st).transfers = maxRetries + 1 ∧
    (uploadAudio env sid blob st).delays = [retryDelay * 1, retryDelay * 2, retryDelay * 3] ∧
    (uploadAudio env sid blob st).store.pendingUploads =
      st.pendingUploads ++ [⟨sid, blob, 0, env.now⟩] ∧
    ∀ m, env.uploadResult maxRetries = some m →
      (uploadAudio env sid blob st).outcome.error = some (uploadFailedMessage m) ∧
      strContains (uploadFailedMessage m) "3 attempts" = true := by
  obtain ⟨m0, h0, hb0⟩ := hfail 0 (by decide)
  obtain ⟨m1, h1, hb1⟩ := hfail 1 (by decide)
  obtain ⟨m2, h2, hb2⟩ := hfail 2 (by decide)
  obtain ⟨m3, h3, hb3⟩ := hfail 3 (by decide)
  have hu : uploadAudio env sid blob st = attemptUpload env sid blob 0 st := by
    simp [uploadAudio, checkServerConnection_none hp]
  have e3 : attemptUpload env sid blob 3 st =
      { outcome := ⟨false, none, none, some (uploadFailedMessage m3)⟩
        store := addPendingUpload sid blob env.now st
        progress := [10], delays := [], transfers := 1 } :=
    attemptUpload_exhaust h3 hb3 (by decide)
  rw [hu, attemptUpload_retry2 h0 hb0 (by decide) (by norm_num : (1 : Nat) = 0 + 1),
    attemptUpload_retry2 h1 hb1 (by decide) (by norm_num : (2 : Nat) = 1 + 1),
    attemptUpload_retry2 h2 hb2 (by decide) (by norm_num : (3 : Nat) = 2 + 1), e3]
  dsimp only
  refine ⟨rfl, by decide, rfl, rfl, ?_⟩
  intro m hm
  have hm3 : m = m3 := by
    have hmm : env.uploadResult 3 = some m := hm
    rw [h3] at hmm
    exact (Option.some.inj hmm).symm
  subst hm3
  exact ⟨rfl, uploadFailedMessage_contains m⟩

/-- C4 witness at a concrete always-failing environment. -/
theorem claim4_witness :
    (uploadAudio wEnvFail "s1" cBlob emptyStorage).outcome.success = false ∧
    (uploadAudio wEnvFail "s1" cBlob emptyStorage).transfers = maxRetries + 1 ∧
    (uploadAudio wEnvFail "s1" cBlob emptyStorage).delays =
      [retryDelay * 1, retryDelay * 2, retryDelay * 3] ∧
    (uploadAudio wEnvFail "s1" cBlob emptyStorage).store.pendingUploads =
      emptyStorage.pendingUploads ++ [⟨"s1", cBlob, 0, wEnvFail.now⟩] ∧
    (uploadAudio wEnvFail "s1" cBlob emptyStorage).outcome.error =
      some (uploadFailedMessage "network glitch") := by
  have h := claim4_retry_policy wEnvFail "s1" cBlob emptyStorage rfl
    (fun n _ => ⟨"network glitch", rfl, by decide⟩)
  exact ⟨h.1, h.2.1, h.2.2.1, h.2.2.2.1, (h.2.2.2.2 "network glitch" rfl).1⟩

/-- C5: a transfer attempt that throws the bucket-not-found error makes the
attempt loop return at once — no further retry, no sleep, exactly this one
transfer — with `success = false` and the configuration-error message, which
names the missing bucket. -/
theorem claim5_bucket_short_circuit (env : RemoteEnv) (sid : String) (blob : Blob)
    (rc : Nat) (st : Storage) (m : String)
    (h : env.uploadResult rc = some m) (hb : isBucketNotFound m = true) :
    attemptUpload env sid blob rc st =
      { outcome := ⟨false, none, none, some bucketMessage⟩
        store := st, progress := [10], delays := [], transfers := 1 } ∧
    strContains bucketMessage STORAGE_BUCKET = true :=
  ⟨attemptUpload_bucket h hb, by decide⟩

/-- C5 witness at a concrete bucket-missing environment. -/
theorem claim5_witness :
    attemptUpload wEnvBucket "s1" cBlob 0 emptyStorage =
      { outcome := ⟨false, none, none, some bucketMessage⟩
        store := emptyStorage, progress := [10], delays := [], transfers := 1 } ∧
    strContains bucketMessage STORAGE_BUCKET = true :=
  claim5_bucket_short_circuit wEnvBucket "s1" cBlob 0 emptyStorage "Bucket not found" rfl (by decide)

/-- C6: failure of the transcription step (unconfigured key, thrown call, or
non-ok response) never makes the overall outcome a failure: every successful
`uploadAudio` outcome — whichever attempt the byte transfer succeeded on —
carries the empty transcript, and whenever the byte transfer succeeds at any
attempt `k` of the call (each earlier attempt failing transiently) the
overall outcome IS `success = true`; upload success is determined solely by
the byte-transfer step. -/
theorem claim6_transcription_never_fails_upload (env : RemoteEnv) (sid : String) (blob : Blob)
    (st : Storage) (hfail : transcriptionFailed env.geminiApiKey env.transcriber) :
    ((uploadAudio env sid blob st).outcome.success = true →
      (uploadAudio env sid blob st).outcome.transcript = some "") ∧
    (∀ k, k ≤ maxRetries → env.probeError = none → env.uploadResult k = none →
      (∀ j < k, ∃ m, env.uploadResult j = some m ∧ isBucketNotFound m = false) →
      (uploadAudio env sid blob st).outcome.success = true) := by
  constructor
  · by_cases hc : checkServerConnection env = true
    · have hu : uploadAudio env sid blob st = attemptUpload env sid blob 0 st := by
        simp [uploadAudio, hc]
      rw [hu]
      intro hs
      rw [attemptUpload_success_transcript env sid blob 0 st hs,
        generateTranscript_failed hfail]
    · simp [uploadAudio, hc]
  · intro k hk hp hok hprev
    have hu : uploadAudio env sid blob st = attemptUpload env sid blob 0 st := by
      simp [uploadAudio, checkServerConnection_none hp]
    rw [hu]
    exact attemptUpload_succeeds_at env sid blob 0 st k (Nat.zero_le k) hk hok
      (fun j _ hj => hprev j hj)

/-- C6 witness: the transfer fails once, succeeds on the retry, and the
unset transcriber key still leaves a successful outcome with the empty
transcript. -/
theorem claim6_witness :
    (uploadAudio wEnvRetryOK "s1" cBlob emptyStorage).outcome.success = true ∧
    (uploadAudio wEnvRetryOK "s1" cBlob emptyStorage).outcome.transcript = some "" := by
  have h := claim6_transcription_never_fails_upload wEnvRetryOK "s1" cBlob emptyStorage (Or.inl rfl)
  have hs : (uploadAudio wEnvRetryOK "s1" cBlob emptyStorage).outcome.success = true :=
    h.2 1 (by decide) rfl rfl (fun j hj => ⟨"network glitch", by
      have hj0 : j = 0 := by omega
      subst hj0
      exact ⟨rfl, by decide⟩⟩)
  exact ⟨hs, h.1 hs⟩

/-- C7: every `uploadAudio` call that returns `success = true` leaves the
pending-upload queue with no entry for that `sessionId`. -/
theorem claim7_success_removes_pending (env : RemoteEnv) (sid : String) (blob : Blob)
    (st : Storage) (h : (uploadAudio env sid blob st).outcome.success = true) :
    (uploadAudio env sid blob st).store.pendingUploads.filter
      (fun u => u.sessionId == sid) = [] := by
  by_cases hc : checkServerConnection env = true
  · have hu : uploadAudio env sid blob st = attemptUpload env sid blob 0 st := by
      simp [uploadAudio, hc]
    rw [hu] at h ⊢
    have hs := (attemptUpload_bundle env sid blob 0 st).2.2.2.2.1 h
    rw [hs, removePendingUpload]
    dsimp only
    rw [List.filter_filter]
    refine List.filter_eq_nil_iff.mpr ?_
    intro a ha
    cases hx : a.sessionId == sid <;> simp [bne, hx]
  · simp [uploadAudio, hc] at h

/-- C7 witness at a concrete all-success environment. -/
theorem claim7_witness :
    (uploadAudio wEnvOK "s1" cBlob emptyStorage).store.pendingUploads.filter
      (fun u => u.sessionId == "s1") = [] :=
  claim7_success_removes_pending wEnvOK "s1" cBlob emptyStorage (by
    show (attemptUpload wEnvOK "s1" cBlob 0 emptyStorage).outcome.success = true
    rw [attemptUpload_ok rfl])

/-- C8: if every queued entry has its blob retrievable from the local cache
and every remote call of the pass succeeds, `retryPendingUploads` ends with
an empty pending-upload queue. -/
theorem claim8_retry_empties_queue (env : String → RemoteEnv) (st : Storage)
    (henv : ∀ u ∈ st.pendingUploads,
      (env u.sessionId).probeError = none ∧ (env u.sessionId).uploadResult 0 = none)
    (hblob : ∀ u ∈ st.pendingUploads, (getAudioBlob u.sessionId st).isSome = true) :
    (retryPendingUploads env st).1.pendingUploads = [] := by
  rw [retryPendingUploads, (retryStep_success env st.pendingUploads st henv hblob).2]
  refine List.filter_eq_nil_iff.mpr ?_
  intro a ha
  have hmem : a.sessionId ∈ st.pendingUploads.map PendingUpload.sessionId :=
    List.mem_map_of_mem _ ha
  simp [hmem]

/-- C8 witness: a concrete two-entry queue is emptied by one successful
pass. -/
theorem claim8_witness :
    (retryPendingUploads (fun _ => wEnvOK) cQueueStorage).1.pendingUploads = [] :=
  claim8_retry_empties_queue (fun _ => wEnvOK) cQueueStorage
    (fun _ _ => ⟨rfl, rfl⟩) (by decide)

/-- C9: within one `uploadAudio` call the progress callback values are
non-decreasing, all lie between 0 and 100, and on a successful outcome the
last reported value is 100. -/
theorem claim9_progress_monotone (env : RemoteEnv) (sid : String) (blob : Blob) (st : Storage) :
    List.Chain' (· ≤ ·) (uploadAudio env sid blob st).progress ∧
    (∀ x ∈ (uploadAudio env sid blob st).progress, x ≤ 100) ∧
    ((uploadAudio env sid blob st).outcome.success = true →
      (uploadAudio env sid blob st).progress.getLast? = some 100) := by
  by_cases hc : checkServerConnection env = true
  · have hu : uploadAudio env sid blob st = attemptUpload env sid blob 0 st := by
      simp [uploadAudio, hc]
    rw [hu]
    obtain ⟨_, hch, hle, hlast, _, _, _⟩ := attemptUpload_bundle env sid blob 0 st
    exact ⟨hch, hle, hlast⟩
  · simp [uploadAudio, hc]

/-- C9 witness: a concrete successful call ends its progress trace at
100. -/
theorem claim9_witness :
    (uploadAudio wEnvOK "s1" cBlob emptyStorage).progress.getLast? = some 100 :=
  (claim9_progress_monotone wEnvOK "s1" cBlob emptyStorage).2.2 (by
    show (attemptUpload wEnvOK "s1" cBlob 0 emptyStorage).outcome.success = true
    rw [attemptUpload_ok rfl])

/-- C10: whenever an `uploadAudio` call returns the bucket-not-found
configuration error — on whichever attempt the bucket error struck — the
outcome is a failure and the local cache is returned exactly as given:
pending-upload queue and cached blobs unchanged, nothing saved for later
retry. -/
theorem claim10_bucket_leaves_state (env : RemoteEnv) (sid : String) (blob : Blob)
    (st : Storage)
    (herr : (uploadAudio env sid blob st).outcome.error = some bucketMessage) :
    (uploadAudio env sid blob st).outcome.success = false ∧
    (uploadAudio env sid blob st).store = st := by
  by_cases hc : checkServerConnection env = true
  · have hu : uploadAudio env sid blob st = attemptUpload env sid blob 0 st := by
      simp [uploadAudio, hc]
    rw [hu] at herr ⊢
    exact attemptUpload_bucketError_state env sid blob 0 st herr
  · have hu : uploadAudio env sid blob st =
        { outcome := ⟨false, none, none, some unreachableMessage⟩
          store := addPendingUpload sid blob env.now st
          progress := [], delays := [], transfers := 0 } := by
      simp [uploadAudio, hc]
    rw [hu] at herr
    exact absurd (Option.some.inj herr) (by decide)

/-- C10 witness: a transient failure followed by the bucket error on the
retry returns the configuration error with the cache untouched. -/
theorem claim10_witness :
    (uploadAudio wEnvBucket2 "s1" cBlob emptyStorage).outcome.success = false ∧
    (uploadAudio wEnvBucket2 "s1" cBlob emptyStorage).store = emptyStorage :=
  claim10_bucket_leaves_state wEnvBucket2 "s1" cBlob emptyStorage (by
    show (attemptUpload wEnvBucket2 "s1" cBlob 0 emptyStorage).outcome.error = some bucketMessage
    rw [attemptUpload_retry rfl (by decide) (by decide)]
    dsimp only
    rw [attemptUpload_bucket rfl (by decide)])

end Saarthi
